import Mathlib

/-!
Verification of the skeletal-animation pipeline of `AnimatedModel`
(`Source/Urho3D/Graphics/AnimatedModel.cpp`).

Floats are embedded as rationals; arrays as lists or index functions.
Math helper types (`Vector3`, `Matrix3x4`, `BoundingBox`, `Sphere`) live in
headers outside the excerpt; they are modelled with their standard semantics
and marked as such.
-/

namespace Urho3D

/-- 3-component vector with rational components (models `Vector3`). -/
structure Vector3 where
  x : ℚ
  y : ℚ
  z : ℚ
deriving DecidableEq, Repr

namespace Vector3

def zero : Vector3 := ⟨0, 0, 0⟩

def add (a b : Vector3) : Vector3 := ⟨a.x + b.x, a.y + b.y, a.z + b.z⟩

def sub (a b : Vector3) : Vector3 := ⟨a.x - b.x, a.y - b.y, a.z - b.z⟩

/-- Componentwise minimum. -/
def cmin (a b : Vector3) : Vector3 := ⟨min a.x b.x, min a.y b.y, min a.z b.z⟩

/-- Componentwise maximum. -/
def cmax (a b : Vector3) : Vector3 := ⟨max a.x b.x, max a.y b.y, max a.z b.z⟩

/-- Componentwise order on vectors. -/
def le (a b : Vector3) : Prop := a.x ≤ b.x ∧ a.y ≤ b.y ∧ a.z ≤ b.z

instance : DecidablePred (fun p : Vector3 × Vector3 => le p.1 p.2) := by
  intro p; unfold le; infer_instance

instance (a b : Vector3) : Decidable (le a b) := by
  unfold le; infer_instance

/-- Squared Euclidean length; used to express `Length() < eps` without square roots. -/
def lengthSq (a : Vector3) : ℚ := a.x * a.x + a.y * a.y + a.z * a.z

end Vector3

/-- Quaternion (models `Quaternion`); only carried as data here. -/
structure Quaternion where
  w : ℚ
  x : ℚ
  y : ℚ
  z : ℚ
deriving DecidableEq, Repr

/-- The identity quaternion. -/
def Quaternion.identity : Quaternion := ⟨1, 0, 0, 0⟩

/-- 3x4 affine matrix (models `Matrix3x4`): 3x3 linear part plus translation column. -/
structure Matrix3x4 where
  m00 : ℚ
  m01 : ℚ
  m02 : ℚ
  m03 : ℚ
  m10 : ℚ
  m11 : ℚ
  m12 : ℚ
  m13 : ℚ
  m20 : ℚ
  m21 : ℚ
  m22 : ℚ
  m23 : ℚ
deriving DecidableEq, Repr

namespace Matrix3x4

/-- Modelled from the spec: `Matrix3x4::operator*` (Math headers are not in the
excerpt) — standard affine composition, right operand applied first. -/
def mul (a b : Matrix3x4) : Matrix3x4 where
  m00 := a.m00 * b.m00 + a.m01 * b.m10 + a.m02 * b.m20
  m01 := a.m00 * b.m01 + a.m01 * b.m11 + a.m02 * b.m21
  m02 := a.m00 * b.m02 + a.m01 * b.m12 + a.m02 * b.m22
  m03 := a.m00 * b.m03 + a.m01 * b.m13 + a.m02 * b.m23 + a.m03
  m10 := a.m10 * b.m00 + a.m11 * b.m10 + a.m12 * b.m20
  m11 := a.m10 * b.m01 + a.m11 * b.m11 + a.m12 * b.m21
  m12 := a.m10 * b.m02 + a.m11 * b.m12 + a.m12 * b.m22
  m13 := a.m10 * b.m03 + a.m11 * b.m13 + a.m12 * b.m23 + a.m13
  m20 := a.m20 * b.m00 + a.m21 * b.m10 + a.m22 * b.m20
  m21 := a.m20 * b.m01 + a.m21 * b.m11 + a.m22 * b.m21
  m22 := a.m20 * b.m02 + a.m21 * b.m12 + a.m22 * b.m22
  m23 := a.m20 * b.m03 + a.m21 * b.m13 + a.m22 * b.m23 + a.m23

instance : Mul Matrix3x4 := ⟨mul⟩

/-- Models `Matrix3x4::Translation()`: the translation column. -/
def translation (m : Matrix3x4) : Vector3 := ⟨m.m03, m.m13, m.m23⟩

/-- The identity affine matrix. -/
def identity : Matrix3x4 := ⟨1, 0, 0, 0, 0, 1, 0, 0, 0, 0, 1, 0⟩

end Matrix3x4

/-- Position/rotation/scale triple (models `Transform`). -/
structure Transform where
  position : Vector3
  rotation : Quaternion
  scale : Vector3
deriving DecidableEq, Repr

/-- Modelled from the spec: `Transform::ToMatrix3x4()` (Math headers are not in
the excerpt) — rotation matrix of the quaternion, columns scaled by the scale,
translation column set to the position. -/
def Transform.toMatrix3x4 (t : Transform) : Matrix3x4 :=
  let q := t.rotation
  let s := t.scale
  { m00 := (1 - 2 * q.y * q.y - 2 * q.z * q.z) * s.x
    m01 := (2 * q.x * q.y - 2 * q.w * q.z) * s.y
    m02 := (2 * q.x * q.z + 2 * q.w * q.y) * s.z
    m03 := t.position.x
    m10 := (2 * q.x * q.y + 2 * q.w * q.z) * s.x
    m11 := (1 - 2 * q.x * q.x - 2 * q.z * q.z) * s.y
    m12 := (2 * q.y * q.z - 2 * q.w * q.x) * s.z
    m13 := t.position.y
    m20 := (2 * q.x * q.z - 2 * q.w * q.y) * s.x
    m21 := (2 * q.y * q.z + 2 * q.w * q.x) * s.y
    m22 := (1 - 2 * q.x * q.x - 2 * q.y * q.y) * s.z
    m23 := t.position.z }

/-- Modelled from the spec: C `fmodf` for the nonnegative arguments used by the
LOD timer (`timer mod distance` with `0 ≤ timer` and `0 < distance`). -/
def fmodQ (x y : ℚ) : ℚ := x - y * (Int.floor (x / y) : ℚ)

/-- The LOD gate state of `AnimatedModel`:
`animationLodBias_`, `animationLodTimer_`, `animationLodDistance_`. -/
structure LodTimerState where
  animationLodBias : ℚ
  animationLodTimer : ℚ
  animationLodDistance : ℚ
deriving DecidableEq, Repr

/-- Models `AnimatedModel::UpdateAndCheckAnimationTimers(timeStep)`.
`baseScale` stands for the constant `ANIMATION_LOD_BASESCALE`, declared outside
the excerpt; it is kept as an explicit parameter. Returns the "due" decision
and the updated state. -/
def updateAndCheckAnimationTimers (baseScale : ℚ) (timeStep : ℚ) (s : LodTimerState) :
    Bool × LodTimerState :=
  if s.animationLodBias > 0 ∧ s.animationLodDistance > 0 then
    if s.animationLodTimer ≥ 0 then
      let t := s.animationLodTimer + s.animationLodBias * timeStep * baseScale
      if t ≥ s.animationLodDistance then
        (true, { s with animationLodTimer := fmodQ t s.animationLodDistance })
      else
        (false, { s with animationLodTimer := t })
    else
      (true, { s with animationLodTimer := 0 })
  else
    (true, s)

/-- Iterate the LOD gate over a list of time steps, collecting the decisions. -/
def runAnimationTimers (baseScale : ℚ) (steps : List ℚ) (s : LodTimerState) :
    List Bool × LodTimerState :=
  match steps with
  | [] => ([], s)
  | dt :: rest =>
    let r := updateAndCheckAnimationTimers baseScale dt s
    let rr := runAnimationTimers baseScale rest r.2
    (r.1 :: rr.1, rr.2)

/-- Axis-aligned bounding box (models `BoundingBox`). `defined` stands for the
source's sentinel test `min_.x_ != M_INFINITY`; the stored corners of an
undefined box carry no meaning. -/
structure BBox where
  defined : Bool
  bmin : Vector3
  bmax : Vector3
deriving DecidableEq, Repr

/-- Sphere (models `Sphere`). -/
structure Sphere where
  center : Vector3
  radius : ℚ
deriving DecidableEq, Repr

namespace BBox

/-- Models `BoundingBox::Clear()`: the undefined box. -/
def clear : BBox := ⟨false, Vector3.zero, Vector3.zero⟩

/-- Modelled from the spec: `BoundingBox::Merge(const Vector3&)` (Math headers
are not in the excerpt) — grow the box to contain a point; merging into an
undefined box defines it as that single point. -/
def mergePoint (b : BBox) (v : Vector3) : BBox :=
  if b.defined then ⟨true, b.bmin.cmin v, b.bmax.cmax v⟩ else ⟨true, v, v⟩

/-- Modelled from the spec: `BoundingBox::Merge(const BoundingBox&)` — grows the
box by the other box's corners; merging an undefined box is a no-op. -/
def mergeBox (b other : BBox) : BBox :=
  if other.defined then (b.mergePoint other.bmin).mergePoint other.bmax else b

/-- Modelled from the spec: `BoundingBox::Merge(const Sphere&)` — merges the
sphere's axis-aligned bounding cube. -/
def mergeSphere (b : BBox) (s : Sphere) : BBox :=
  let r : Vector3 := ⟨s.radius, s.radius, s.radius⟩
  (b.mergePoint (s.center.add r)).mergePoint (s.center.sub r)

/-- Models `BoundingBox::Define(const BoundingBox&)`: copy the other box's corners. -/
def defineBox (_b other : BBox) : BBox := other

/-- Models `BoundingBox::Size()`: `max - min`. -/
def size (b : BBox) : Vector3 := b.bmax.sub b.bmin

/-- Modelled from the spec: `BoundingBox::Transformed(const Matrix3x4&)` —
conservative axis-aligned bound of the transformed box, computed from the new
center and the absolute-value image of the half-extent. -/
def transformed (b : BBox) (m : Matrix3x4) : BBox :=
  let center := b.bmin.add b.bmax
  let c : Vector3 :=
    ⟨(m.m00 * center.x + m.m01 * center.y + m.m02 * center.z) / 2 + m.m03,
     (m.m10 * center.x + m.m11 * center.y + m.m12 * center.z) / 2 + m.m13,
     (m.m20 * center.x + m.m21 * center.y + m.m22 * center.z) / 2 + m.m23⟩
  let e := b.size
  let d : Vector3 :=
    ⟨(|m.m00| * e.x + |m.m01| * e.y + |m.m02| * e.z) / 2,
     (|m.m10| * e.x + |m.m11| * e.y + |m.m12| * e.z) / 2,
     (|m.m20| * e.x + |m.m21| * e.y + |m.m22| * e.z) / 2⟩
  ⟨true, c.sub d, c.add d⟩

/-- Box containment: every point of `a` is in `b` (undefined `a` is contained
in anything). -/
def subset (a b : BBox) : Prop :=
  a.defined = true → b.defined = true ∧ b.bmin.le a.bmin ∧ a.bmax.le b.bmax

instance (a b : BBox) : Decidable (subset a b) := by
  unfold subset; infer_instance

end BBox

/-- External scene node, value view (models the `Node` fields this subsystem
reads: local position/rotation/scale and the propagated world transform). -/
structure Node where
  position : Vector3
  rotation : Quaternion
  scale : Vector3
  worldTransform : Matrix3x4
deriving DecidableEq, Repr

/-- A bone of the skeleton (models `Bone`). The two collision-mask bits
`BONECOLLISION_SPHERE` and `BONECOLLISION_BOX` are carried as booleans. -/
structure Bone where
  name : String
  nameHash : Nat
  parentIndex : Nat
  initialPosition : Vector3
  initialRotation : Quaternion
  initialScale : Vector3
  offsetMatrix : Matrix3x4
  collisionSphere : Bool
  collisionBox : Bool
  radius : ℚ
  boundingBox : BBox
  animated : Bool
  node : Option Node
deriving DecidableEq, Repr

/-- Dirty-channel marker of an animation output (`CHANNEL_NONE` is `0`). -/
abbrev Channel := Nat

def CHANNEL_NONE : Channel := 0

/-- Per-bone animation output (models `ModelAnimationOutput`). -/
structure ModelAnimationOutput where
  localToParent : Transform
  localToComponent : Matrix3x4
  dirty : Channel
deriving DecidableEq, Repr

/-- Models `AnimatedModel::CalculateFinalBoneTransforms()`: one forward pass over the
skeleton's processing order `order`; the root (its own parent) takes its local
transform, every other bone takes the parent's already-composed
component-space transform times its own local transform. `par` is the
`parentIndex_` table and `data` the `skeletonData_` array. -/
def calculateFinalBoneTransforms (par : Nat → Nat) (order : List Nat)
    (data : Nat → ModelAnimationOutput) : Nat → ModelAnimationOutput :=
  order.foldl
    (fun d b =>
      let loc := (d b).localToParent.toMatrix3x4
      let comp :=
        if par b = b then loc
        else (d (par b)).localToComponent * loc
      Function.update d b { d b with localToComponent := comp })
    data

/-- Left-associated product of the local matrices along the ancestor chain of a
bone, in root-to-bone order, with fuel for termination. -/
def ancestorProdGo (par : Nat → Nat) (loc : Nat → Matrix3x4) : Nat → Nat → Matrix3x4
  | 0, b => loc b
  | f + 1, b => if par b = b then loc b else (ancestorProdGo par loc f (par b)) * loc b

/-- Left-associated product of all ancestor local matrices of bone `b`, in
root-to-bone order (the bone's own index bounds the chain length whenever
parent indices do not exceed their own index). -/
def ancestorProd (par : Nat → Nat) (loc : Nat → Matrix3x4) (b : Nat) : Matrix3x4 :=
  ancestorProdGo par loc b b

/-- Parent-before-child in processing order: each listed bone is either a root
or its parent occurs at an earlier position of the order. -/
def parentBeforeChild (par : Nat → Nat) (order : List Nat) : Prop :=
  ∀ k : Fin order.length, par (order.get k) = order.get k ∨
    par (order.get k) ∈ order.take k.val

instance (par : Nat → Nat) (order : List Nat) : Decidable (parentBeforeChild par order) := by
  unfold parentBeforeChild; infer_instance

/-- Scenario skeleton for C1: three bones in a chain, each bone's parent being
the previous index (`0` is its own parent, hence the root). -/
def exPar1 : Nat → Nat := fun i => i - 1

/-- Scenario animation outputs for C1: every bone translates by `(1, 0, 0)`. -/
def exData1 : Nat → ModelAnimationOutput := fun _ =>
  { localToParent := ⟨⟨1, 0, 0⟩, Quaternion.identity, ⟨1, 1, 1⟩⟩
    localToComponent := Matrix3x4.identity
    dirty := CHANNEL_NONE }

/-- Neutral animation output used as the explicit `getD` fallback. -/
def dummyOutput : ModelAnimationOutput :=
  { localToParent := ⟨Vector3.zero, Quaternion.identity, ⟨1, 1, 1⟩⟩
    localToComponent := Matrix3x4.identity
    dirty := CHANNEL_NONE }

/-- Neutral bone used as the explicit `getD` fallback. -/
def dummyBone : Bone :=
  { name := ""
    nameHash := 0
    parentIndex := 0
    initialPosition := Vector3.zero
    initialRotation := Quaternion.identity
    initialScale := ⟨1, 1, 1⟩
    offsetMatrix := Matrix3x4.identity
    collisionSphere := false
    collisionBox := false
    radius := 0
    boundingBox := BBox.clear
    animated := true
    node := none }

/-- Models `AnimatedModel::InitializeLocalBoneTransforms(reset)`: clears each output's
dirty marker and sets its local-to-parent transform from the bone's node when
present and not resetting, and from the bone's bind pose otherwise. The
source asserts that `bones` and `data` have equal length. -/
def initializeLocalBoneTransforms (reset : Bool) (bones : List Bone)
    (data : List ModelAnimationOutput) : List ModelAnimationOutput :=
  (bones.zip data).map fun p =>
    { p.2 with
      dirty := CHANNEL_NONE
      localToParent :=
        match reset, p.1.node with
        | false, some nd => ⟨nd.position, nd.rotation, nd.scale⟩
        | _, _ => ⟨p.1.initialPosition, p.1.initialRotation, p.1.initialScale⟩ }

/-- Scenario bone for C8: one bone with an attached node whose current
transform differs from the bind pose. -/
def exBone8 : Bone :=
  { dummyBone with
    initialPosition := ⟨2, 3, 4⟩
    node := some ⟨⟨9, 9, 9⟩, Quaternion.identity, ⟨1, 1, 1⟩, Matrix3x4.identity⟩ }

/-- A morph target (models `ModelMorph`): name, name hash, current weight. -/
structure ModelMorph where
  name : String
  nameHash : Nat
  weight : ℚ
deriving DecidableEq, Repr

/-- The morph-relevant slice of one `AnimatedModel` component. -/
structure MorphModel where
  isMaster : Bool
  morphs : List ModelMorph
  morphsDirty : Bool
deriving DecidableEq, Repr

def dummyMorph : ModelMorph := ⟨"", 0, 0⟩

def dummyMorphModel : MorphModel := ⟨false, [], false⟩

/-- Models `AnimatedModel::SetMorphWeight(index, weight)` restricted to one component:
the bounds guard, the no-change guard, the write and the dirty marking. The
master's propagation to siblings is added in `setMorphWeight`. -/
def setMorphWeightLocal (m : MorphModel) (index : Nat) (weight : ℚ) : MorphModel :=
  match m.morphs[index]? with
  | none => m
  | some morph =>
    if weight ≠ morph.weight then
      { m with
        morphs := m.morphs.set index { morph with weight := weight }
        morphsDirty := true }
    else m

/-- Models `AnimatedModel::SetMorphWeight(nameHash, weight)`: linear scan, first morph
with the given name hash is set by index; no morphs are touched otherwise. -/
def setMorphWeightByHashLocal (m : MorphModel) (hash : Nat) (w : ℚ) : MorphModel :=
  match m.morphs.findIdx? (fun mo => mo.nameHash == hash) with
  | some i => setMorphWeightLocal m i w
  | none => m

/-- The master's propagation loop over `node_->GetComponents` (index `0` is the
component itself): starting from index `1`, every non-master component receives
the weight by name hash. -/
def propagateSiblings (hash : Nat) (w : ℚ) (models : List MorphModel) : List MorphModel :=
  match models with
  | [] => []
  | first :: rest =>
    first :: rest.map fun mm =>
      if ¬ mm.isMaster then setMorphWeightByHashLocal mm hash w else mm

/-- Models `AnimatedModel::SetMorphWeight(index, weight)` on component `k` of the
components attached to one node, component `0` being the one the call is made
on: bounds guard, no-change guard, local write, and — on a master — synchronous
propagation to the non-master siblings by name hash. -/
def setMorphWeight (models : List MorphModel) (k index : Nat) (w : ℚ) : List MorphModel :=
  match models[k]? with
  | none => models
  | some m =>
    match m.morphs[index]? with
    | none => models
    | some morph =>
      if w ≠ morph.weight then
        let m' : MorphModel :=
          { m with
            morphs := m.morphs.set index { morph with weight := w }
            morphsDirty := true }
        let models1 := models.set k m'
        if m.isMaster then propagateSiblings morph.nameHash w models1 else models1
      else models

/-- Models `AnimatedModel::GetMorphWeight(index)`: stored weight in range, else zero. -/
def getMorphWeight (morphs : List ModelMorph) (index : Nat) : ℚ :=
  match morphs[index]? with
  | some morph => morph.weight
  | none => 0

/-- Models `AnimatedModel::GetMorphWeight(name)`: first morph with the name, else zero. -/
def getMorphWeightByName (morphs : List ModelMorph) (name : String) : ℚ :=
  match morphs.find? (fun mo => mo.name == name) with
  | some morph => morph.weight
  | none => 0

/-- Models `AnimatedModel::GetMorphWeight(nameHash)`: first morph with the hash, else
zero. -/
def getMorphWeightByHash (morphs : List ModelMorph) (hash : Nat) : ℚ :=
  match morphs.find? (fun mo => mo.nameHash == hash) with
  | some morph => morph.weight
  | none => 0

/-- Scenario components for C6: master with morph `"smile"` at weight `2`, one
non-master sibling with the same-named morph at weight `1`. -/
def exModels6 : List MorphModel :=
  [⟨true, [⟨"smile", 7, 2⟩], false⟩, ⟨false, [⟨"smile", 7, 1⟩], false⟩]

/-- The per-bone skin matrix of `AnimatedModel::UpdateSkinning()`: a bone with
an associated node takes `nodeWorldTransform * offsetMatrix`, a bone without a
node falls back to the model node's own world transform. -/
def computeSkinMatrix (worldTransform : Matrix3x4) (bone : Bone) : Matrix3x4 :=
  match bone.node with
  | some nd => nd.worldTransform * bone.offsetMatrix
  | none => worldTransform

/-- Models `AnimatedModel::SetGeometryBoneMappings()` alias table: slot `b` lists, in
order, every per-geometry position `(i, j)` whose mapped global bone
`geometryBoneMappings_[i][j]` equals `b`. The source stores raw pointers into
`geometrySkinMatrices_`; the index pairs model the same aliasing. -/
def setGeometryBoneMappings (numBones : Nat) (mappings : List (List Nat)) :
    List (List (Nat × Nat)) :=
  (List.range numBones).map fun b =>
    ((List.range mappings.length).map fun i =>
      (List.range (mappings.getD i []).length).filterMap fun j =>
        if (mappings.getD i []).getD j 0 = b then some (i, j) else none).flatten

/-- One write through an alias of the pointer table: slot `j` of geometry `g`. -/
def writeGeomSlot (gsm : List (List Matrix3x4)) (g j : Nat) (v : Matrix3x4) :
    List (List Matrix3x4) :=
  gsm.set g ((gsm.getD g []).set j v)

/-- Apply a list of per-geometry slot writes in order. -/
def applyWrites (writes : List ((Nat × Nat) × Matrix3x4)) (gsm : List (List Matrix3x4)) :
    List (List Matrix3x4) :=
  writes.foldl (fun acc pv => writeGeomSlot acc pv.1.1 pv.1.2 pv.2) gsm

/-- Models `AnimatedModel::UpdateSkinning()`: rebuild the global skin matrices from
the bones; when per-geometry matrices exist, additionally copy each bone's
matrix through its alias table entries. -/
def updateSkinning (worldTransform : Matrix3x4) (bones : List Bone)
    (ptrs : List (List (Nat × Nat))) (gsm : List (List Matrix3x4)) :
    List Matrix3x4 × List (List Matrix3x4) :=
  let skinMatrices := bones.map (computeSkinMatrix worldTransform)
  if gsm.isEmpty then
    (skinMatrices, gsm)
  else
    let gsm' := (List.range bones.length).foldl
      (fun acc i =>
        (ptrs.getD i []).foldl
          (fun acc2 p => writeGeomSlot acc2 p.1 p.2 (skinMatrices.getD i Matrix3x4.identity))
          acc)
      gsm
    (skinMatrices, gsm')

/-- Scenario world transform for C3: translation by `(5, 0, 0)`. -/
def exWorld3 : Matrix3x4 := { Matrix3x4.identity with m03 := 5 }

/-- Scenario bone node for C3 with world translation `(1, 2, 3)`. -/
def exNode3 : Node :=
  ⟨Vector3.zero, Quaternion.identity, ⟨1, 1, 1⟩,
    { Matrix3x4.identity with m03 := 1, m13 := 2, m23 := 3 }⟩

/-- Scenario bones for C3: bone 0 has a node, bone 1 does not. -/
def exBones3 : List Bone := [{ dummyBone with node := some exNode3 }, dummyBone]

/-- Scenario geometry bone mappings for C3: one geometry whose slots reference
bones `1` and `0`. -/
def exMappings3 : List (List Nat) := [[1, 0]]

/-- Scenario per-geometry matrices for C3, sized like the mappings. -/
def exGsm3 : List (List Matrix3x4) := [[Matrix3x4.identity, Matrix3x4.identity]]

/-- Models `AnimatedModel::CalculateLocalBoundingBox()`: composes the hierarchy, then
clears the bone bounding box and, for an empty skeleton, merges the single
point at the origin; otherwise merges every bone's collision volume in
component space — the hitbox transformed by the bone's composed matrix when a
box is present, else a sphere at the composed translation with half the bone's
radius. -/
def calculateLocalBoundingBox (bones : List Bone) (order : List Nat)
    (data : Nat → ModelAnimationOutput) : BBox :=
  let d := calculateFinalBoneTransforms
    (fun i => (bones.getD i dummyBone).parentIndex) order data
  if bones.isEmpty then
    BBox.clear.mergePoint Vector3.zero
  else
    (List.range bones.length).foldl
      (fun bb i =>
        let bone := bones.getD i dummyBone
        let transform := (d i).localToComponent
        if bone.collisionBox then bb.mergeBox (bone.boundingBox.transformed transform)
        else if bone.collisionSphere then
          bb.mergeSphere ⟨transform.translation, bone.radius * (1/2)⟩
        else bb)
      BBox.clear

/-- C4's specified per-bone contribution, in the spec's words: a box-shaped
bone contributes its box transformed by the bone's component-space matrix; a
sphere-shaped bone with no box contributes a sphere centered at the
transform's translation with exactly one half of the bone's radius (bone scale
not applied); any other bone contributes nothing. -/
def specBoneContribution (bone : Bone) (transform : Matrix3x4) (bb : BBox) : BBox :=
  if bone.collisionBox then bb.mergeBox (bone.boundingBox.transformed transform)
  else if bone.collisionSphere then
    bb.mergeSphere ⟨transform.translation, bone.radius * (1/2)⟩
  else bb

/-- C4's specified bound: the fold of the per-bone contributions over the
composed transforms, and the single point at the origin for an empty
skeleton. -/
def specLocalBound (bones : List Bone) (d : Nat → Matrix3x4) : BBox :=
  if bones.isEmpty then ⟨true, Vector3.zero, Vector3.zero⟩
  else
    (List.range bones.length).foldl
      (fun bb i => specBoneContribution (bones.getD i dummyBone) (d i) bb) BBox.clear

/-- The constant `M_EPSILON` (value `0.000001f` in the Math headers). -/
def M_EPSILON : ℚ := 1 / 1000000

/-- The sphere half of the inner merge of `FinalizeBoneBoundingBoxes`: a
sibling sphere sets the flag and takes the larger radius. -/
def mergeSpherePart (b other : Bone) : Bone :=
  if other.collisionSphere = true then
    { b with
      collisionSphere := true
      radius := max b.radius other.radius }
  else b

/-- The box half of the inner merge of `FinalizeBoneBoundingBoxes`: a sibling
box sets the flag and merges into the box when defined, else defines it. -/
def mergeBoxPart (b other : Bone) : Bone :=
  if other.collisionBox = true then
    { b with
      collisionBox := true
      boundingBox :=
        if b.boundingBox.defined = true then b.boundingBox.mergeBox other.boundingBox
        else b.boundingBox.defineBox other.boundingBox }
  else b

/-- The inner merge of `FinalizeBoneBoundingBoxes`: fold one matching sibling
bone's collision info into a master bone — sphere first, then box, as in the
source. -/
def mergeOtherBone (b other : Bone) : Bone := mergeBoxPart (mergeSpherePart b other) other

/-- Merge one sibling skeleton into every master bone, matching by name hash
(`Skeleton::GetBone(nameHash)` returns the first match). -/
def mergeSiblingSkeleton (bones : List Bone) (otherSkeleton : List Bone) : List Bone :=
  bones.map fun b =>
    match otherSkeleton.find? (fun ob => ob.nameHash == b.nameHash) with
    | some ob => mergeOtherBone b ob
    | none => b

/-- Reset the master bones' collision info to the model resource's values
(positions beyond either list are left as they are). -/
def resetBoneCollisionFromModel (bones modelBones : List Bone) : List Bone :=
  bones.mapIdx fun i b =>
    match modelBones[i]? with
    | some mb =>
      { b with
        collisionSphere := mb.collisionSphere
        collisionBox := mb.collisionBox
        radius := mb.radius
        boundingBox := mb.boundingBox }
    | none => b

/-- Strip the box flag of a bone whose box has near-zero size. The source
tests `Size().Length() < M_EPSILON`; squares are compared here
(`lengthSq < M_EPSILON * M_EPSILON`), the same predicate for the real square
root of a nonnegative sum of squares. -/
def stripBoxDegenerate (b : Bone) : Bone :=
  if b.collisionBox = true ∧ b.boundingBox.size.lengthSq < M_EPSILON * M_EPSILON then
    { b with collisionBox := false }
  else b

/-- Strip the sphere flag of a bone with near-zero radius. -/
def stripSphereDegenerate (b : Bone) : Bone :=
  if b.collisionSphere = true ∧ b.radius < M_EPSILON then
    { b with collisionSphere := false }
  else b

/-- The degenerate-collision strip at the end of `FinalizeBoneBoundingBoxes`:
box first, then sphere, as in the source. -/
def stripDegenerateCollision (b : Bone) : Bone := stripSphereDegenerate (stripBoxDegenerate b)

/-- The master bones just before the sibling merge: reset from the model
resource when there is more than one component on the node, untouched
otherwise. -/
def preMergeBones (modelBones : Option (List Bone)) (bones : List Bone)
    (others : List (List Bone)) : List Bone :=
  if others.isEmpty then bones
  else
    match modelBones with
    | some mb => resetBoneCollisionFromModel bones mb
    | none => bones

/-- The master bones after merging every sibling skeleton's collision info. -/
def mergedBones (modelBones : Option (List Bone)) (bones : List Bone)
    (others : List (List Bone)) : List Bone :=
  others.foldl mergeSiblingSkeleton (preMergeBones modelBones bones others)

/-- Models `AnimatedModel::FinalizeBoneBoundingBoxes()`: reset from the model, merge
every sibling skeleton, then strip degenerate collision shapes. -/
def finalizeBoneBoundingBoxes (modelBones : Option (List Bone)) (bones : List Bone)
    (others : List (List Bone)) : List Bone :=
  (mergedBones modelBones bones others).map stripDegenerateCollision

/-- Collision-volume containment on bones: flags only grow, boxes only grow in
the containment order, sphere radii only grow. -/
def boneCollisionLE (b b' : Bone) : Prop :=
  (b.collisionSphere = true → b'.collisionSphere = true ∧ b.radius ≤ b'.radius) ∧
  (b.collisionBox = true → b'.collisionBox = true ∧ b.boundingBox.subset b'.boundingBox)

instance (b b' : Bone) : Decidable (boneCollisionLE b b') := by
  unfold boneCollisionLE; infer_instance

/-- Scenario master bone for C5: sphere of radius `1`, hash `11`. -/
def exBone5 : Bone := { dummyBone with nameHash := 11, collisionSphere := true, radius := 1 }

/-- Scenario sibling skeletons for C5: one sibling whose same-hash bone has a
larger sphere. -/
def exOthers5 : List (List Bone) :=
  [[{ dummyBone with nameHash := 11, collisionSphere := true, radius := 2 }]]

/-- The error logged by `SetModel` when the component has no scene node. -/
def setModelErrorMsg : String :=
  "Can not set model while model component is not attached to a scene node"

/-- The error logged by `SetSkeleton` when bone nodes cannot be created. -/
def setSkeletonErrorMsg : String :=
  "AnimatedModel not attached to a scene node, can not create bone nodes"

/-- The compatibility loop of `SetSkeleton`: bone by bone, an existing attached
node with equal name and equal parent index. -/
def bonesCompatible : List Bone → List Bone → Bool
  | [], [] => true
  | d :: ds, s :: ss =>
    d.node.isSome && (d.name == s.name) && (d.parentIndex == s.parentIndex) &&
      bonesCompatible ds ss
  | _, _ => false

/-- The compatible-path copy: take the new bone's values but retain the old
bone's node and animated flag. -/
def copyBoneRetain (d s : Bone) : Bone := { s with node := d.node, animated := d.animated }

/-- A freshly created bone node (`node_->CreateChild` + `SetTransform` with the
bone's initial transform). -/
def mkBoneNode (b : Bone) : Node :=
  ⟨b.initialPosition, b.initialRotation, b.initialScale, Matrix3x4.identity⟩

/-- Models `AnimatedModel::SetSkeleton(skeleton, createBones)` on a master instance
with no sibling components: the unattached error when bone nodes are requested;
the compatible fast path that keeps the old nodes and animated flags and only
copies the other bone values; otherwise the full rebuild — redefine the
skeleton, finalize bone bounding boxes (with a single component this only
strips degenerate collision shapes) and create fresh bone nodes. The returned
flag is `true` exactly when the bone nodes were rebuilt. -/
def setSkeletonMaster (attached : Bool) (oldBones newBones : List Bone)
    (createBones : Bool) : Except String (List Bone × Bool) :=
  if attached = false ∧ createBones = true then
    .error setSkeletonErrorMsg
  else if oldBones.length = newBones.length ∧ bonesCompatible oldBones newBones = true then
    .ok ((oldBones.zip newBones).map (fun p => copyBoneRetain p.1 p.2), false)
  else
    .ok ((finalizeBoneBoundingBoxes none newBones []).map
      (fun b => if createBones = true then { b with node := some (mkBoneNode b) } else b),
      true)

/-- Scenario old bone for C7: attached node, same name and parent as the new
bone, different collision values. -/
def exOldBone7 : Bone :=
  { dummyBone with
    name := "hip"
    nameHash := 3
    animated := false
    node := some (mkBoneNode dummyBone) }

/-- Scenario new bone for C7: same name and parent index, new radius. -/
def exNewBone7 : Bone := { dummyBone with name := "hip", nameHash := 3, radius := 7 }

/-- A loaded model resource as this excerpt's claims observe it: a skeleton and
a morph set. -/
structure ModelRes where
  skeleton : List Bone
  morphs : List ModelMorph
deriving DecidableEq, Repr

/-- The component state observed by `SetModel`. -/
structure AMState where
  attached : Bool
  model : Option ModelRes
  bones : List Bone
  morphs : List ModelMorph
  log : List String
deriving DecidableEq, Repr

/-- Models `AnimatedModel::SetModel(model, createBones)` reduced to the state the
claims observe: the same-model early return, the unattached error path, and —
when attached — adoption of the new model's morphs and skeleton via
`setSkeletonMaster`, or full clearing for a null model. -/
def setModel (s : AMState) (model : Option ModelRes) (createBones : Bool) : AMState :=
  if model = s.model then s
  else if s.attached = false then
    { s with log := s.log ++ [setModelErrorMsg] }
  else
    match model with
    | some res =>
      let bones' :=
        match setSkeletonMaster s.attached s.bones res.skeleton createBones with
        | .ok (bs, _) => bs
        | .error _ => s.bones
      { s with model := model, morphs := res.morphs, bones := bones' }
    | none => { s with model := none, morphs := [], bones := [] }

/-! ### Theorems -/

/-- The fuel of `ancestorProdGo` is irrelevant once it reaches the bone index,
provided parent indices never exceed their own index. -/
theorem ancestorProdGo_congr (par : Nat → Nat) (loc : Nat → Matrix3x4)
    (hpar : ∀ i, par i ≤ i) :
    ∀ f g b, b ≤ f → b ≤ g →
      ancestorProdGo par loc f b = ancestorProdGo par loc g b := by
  intro f
  induction f with
  | zero =>
    intro g b hbf _
    have hb0 : b = 0 := Nat.le_zero.mp hbf
    subst hb0
    have hp0 : par 0 = 0 := Nat.le_zero.mp (hpar 0)
    cases g with
    | zero => rfl
    | succ g' => simp [ancestorProdGo, hp0]
  | succ f' ih =>
    intro g b hbf hbg
    cases g with
    | zero =>
      have hb0 : b = 0 := Nat.le_zero.mp hbg
      subst hb0
      have hp0 : par 0 = 0 := Nat.le_zero.mp (hpar 0)
      simp [ancestorProdGo, hp0]
    | succ g' =>
      by_cases hroot : par b = b
      · simp [ancestorProdGo, hroot]
      · have hlt : par b < b := Nat.lt_of_le_of_ne (hpar b) hroot
        have h1 : par b ≤ f' := by omega
        have h2 : par b ≤ g' := by omega
        simp only [ancestorProdGo, if_neg hroot]
        rw [ih g' (par b) h1 h2]

/-- A root bone's ancestor product is its own local matrix. -/
theorem ancestorProd_root (par : Nat → Nat) (loc : Nat → Matrix3x4) (b : Nat)
    (hroot : par b = b) : ancestorProd par loc b = loc b := by
  unfold ancestorProd
  cases b with
  | zero => rfl
  | succ m => simp [ancestorProdGo, hroot]

/-- A non-root bone's ancestor product is the parent's ancestor product times
the bone's local matrix (local on the right). -/
theorem ancestorProd_step (par : Nat → Nat) (loc : Nat → Matrix3x4) (b : Nat)
    (hpar : ∀ i, par i ≤ i) (hroot : par b ≠ b) :
    ancestorProd par loc b = ancestorProd par loc (par b) * loc b := by
  have hlt : par b < b := Nat.lt_of_le_of_ne (hpar b) hroot
  cases b with
  | zero => exact absurd hlt (Nat.not_lt_zero _)
  | succ m =>
    unfold ancestorProd
    simp only [ancestorProdGo, if_neg hroot]
    rw [ancestorProdGo_congr par loc hpar m (par (m + 1)) (par (m + 1)) (by omega)
      (Nat.le_refl _)]

/-- Unfolding one step of the composition pass. -/
theorem calculateFinalBoneTransforms_cons (par : Nat → Nat) (b : Nat) (rest : List Nat)
    (data : Nat → ModelAnimationOutput) :
    calculateFinalBoneTransforms par (b :: rest) data =
      calculateFinalBoneTransforms par rest
        (Function.update data b
          { data b with
            localToComponent :=
              if par b = b then (data b).localToParent.toMatrix3x4
              else (data (par b)).localToComponent * (data b).localToParent.toMatrix3x4 }) :=
  rfl

/-- Invariant of the composition pass: bones whose component-space transform is
already the ancestor product stay correct, and every processed bone becomes
correct, as long as each processed bone is a root or has its parent among the
already-correct bones or earlier in the remaining order. -/
theorem calculateFinalBoneTransforms_invariant (par : Nat → Nat) (loc : Nat → Matrix3x4)
    (hpar : ∀ i, par i ≤ i) :
    ∀ (order S : List Nat) (data : Nat → ModelAnimationOutput),
      (∀ i, (data i).localToParent.toMatrix3x4 = loc i) →
      (∀ i, i ∈ S → (data i).localToComponent = ancestorProd par loc i) →
      (∀ k : Fin order.length, par (order.get k) = order.get k ∨
          par (order.get k) ∈ S ++ order.take k.val) →
      ∀ i, i ∈ S ++ order →
        ((calculateFinalBoneTransforms par order data) i).localToComponent
          = ancestorProd par loc i := by
  intro order
  induction order with
  | nil =>
    intro S data _ hS _ i hi
    rw [List.append_nil] at hi
    exact hS i hi
  | cons b rest ih =>
    intro S data hloc hS horder i hi
    rw [calculateFinalBoneTransforms_cons]
    set compB :=
      if par b = b then (data b).localToParent.toMatrix3x4
      else (data (par b)).localToComponent * (data b).localToParent.toMatrix3x4 with hcompB
    set data' := Function.update data b { data b with localToComponent := compB } with hdata'
    have hcomp : compB = ancestorProd par loc b := by
      by_cases hroot : par b = b
      · rw [hcompB, if_pos hroot, hloc b, ancestorProd_root par loc b hroot]
      · have h0 := horder ⟨0, by simp⟩
        simp only [List.get, List.take, List.append_nil] at h0
        rcases h0 with h0 | h0
        · exact absurd h0 hroot
        · rw [hcompB, if_neg hroot, hS (par b) h0, hloc b,
            ancestorProd_step par loc b hpar hroot]
    have hloc' : ∀ j, (data' j).localToParent.toMatrix3x4 = loc j := by
      intro j
      by_cases hj : j = b
      · subst hj
        rw [hdata', Function.update_same]
        exact hloc j
      · rw [hdata', Function.update_noteq hj]
        exact hloc j
    have hS' : ∀ j, j ∈ b :: S → (data' j).localToComponent = ancestorProd par loc j := by
      intro j hj
      by_cases hjb : j = b
      · subst hjb
        rw [hdata', Function.update_same]
        exact hcomp
      · have hjS : j ∈ S := by
          rcases List.mem_cons.mp hj with h | h
          · exact absurd h hjb
          · exact h
        rw [hdata', Function.update_noteq hjb]
        exact hS j hjS
    have horder' : ∀ k : Fin rest.length, par (rest.get k) = rest.get k ∨
        par (rest.get k) ∈ (b :: S) ++ rest.take k.val := by
      intro k
      have hk := horder ⟨k.val + 1, by simp [Nat.succ_lt_succ_iff, k.isLt]⟩
      simp only [List.get_cons_succ, List.take_succ_cons] at hk
      rcases hk with hk | hk
      · exact Or.inl hk
      · right
        simp only [List.mem_append, List.mem_cons] at hk ⊢
        tauto
    have hi' : i ∈ (b :: S) ++ rest := by
      simp only [List.mem_append, List.mem_cons] at hi ⊢
      tauto
    exact ih (b :: S) data' hloc' hS' horder' i hi'

/-- C1: for a skeleton whose processing order is parent-before-child (and whose
parent indices never exceed their own index), the composition pass
`CalculateFinalBoneTransforms` gives every processed bone a component-space
transform equal to the left-associated product of all ancestor local-to-parent
matrices in root-to-bone order; in particular it equals the bone's local matrix
for a root, and the parent's ancestor product times the bone's local matrix
otherwise. -/
theorem claim_C1_hierarchy_composition (par : Nat → Nat) (order : List Nat)
    (data : Nat → ModelAnimationOutput)
    (hpar : ∀ i, par i ≤ i)
    (horder : parentBeforeChild par order)
    (b : Nat) (hb : b ∈ order) :
    ((calculateFinalBoneTransforms par order data) b).localToComponent
      = ancestorProd par (fun i => (data i).localToParent.toMatrix3x4) b ∧
    (par b = b →
      ancestorProd par (fun i => (data i).localToParent.toMatrix3x4) b
        = (data b).localToParent.toMatrix3x4) ∧
    (par b ≠ b →
      ancestorProd par (fun i => (data i).localToParent.toMatrix3x4) b
        = ancestorProd par (fun i => (data i).localToParent.toMatrix3x4) (par b) *
            (data b).localToParent.toMatrix3x4) := by
  refine ⟨?_, ?_, ?_⟩
  · apply calculateFinalBoneTransforms_invariant par
      (fun i => (data i).localToParent.toMatrix3x4) hpar order [] data
      (fun i => rfl) (fun i hi => absurd hi (List.not_mem_nil i))
    · intro k
      have hk := horder k
      simpa using hk
    · simpa using hb
  · intro hroot
    exact ancestorProd_root par _ b hroot
  · intro hroot
    exact ancestorProd_step par _ b hpar hroot

/-- Witness for C1 on the three-bone chain processed in order `[0, 1, 2]`. -/
theorem claim_C1_witness :
    (∀ i, exPar1 i ≤ i) ∧ parentBeforeChild exPar1 [0, 1, 2] ∧ 2 ∈ [0, 1, 2] ∧
    ((calculateFinalBoneTransforms exPar1 [0, 1, 2] exData1) 2).localToComponent
      = ancestorProd exPar1 (fun i => (exData1 i).localToParent.toMatrix3x4) 2 :=
  ⟨fun i => Nat.sub_le i 1, by decide, by decide,
    (claim_C1_hierarchy_composition exPar1 [0, 1, 2] exData1 (fun i => Nat.sub_le i 1)
      (by decide) 2 (by decide)).1⟩

/-- C2: the LOD gate always reports due without touching the timer when bias or
distance is nonpositive; from the negative sentinel it resets the timer to zero
and reports due; otherwise it accumulates `bias * dt * baseScale` and reports
due with the timer wrapped modulo the distance exactly when the accumulated
timer reaches the distance. The pinned scenario (bias 1, distance 10, base
scale 1, eleven unit steps from the sentinel) is due on the first and eleventh
calls only and ends with the timer wrapped to zero. -/
theorem claim_C2_lod_timer_gate (baseScale dt : ℚ) (s : LodTimerState) :
    (s.animationLodBias ≤ 0 ∨ s.animationLodDistance ≤ 0 →
      updateAndCheckAnimationTimers baseScale dt s = (true, s)) ∧
    (s.animationLodBias > 0 → s.animationLodDistance > 0 → s.animationLodTimer < 0 →
      updateAndCheckAnimationTimers baseScale dt s
        = (true, { s with animationLodTimer := 0 })) ∧
    (s.animationLodBias > 0 → s.animationLodDistance > 0 → 0 ≤ s.animationLodTimer →
      (s.animationLodTimer + s.animationLodBias * dt * baseScale ≥ s.animationLodDistance →
        updateAndCheckAnimationTimers baseScale dt s
          = (true, { s with animationLodTimer := (fmodQ
              (s.animationLodTimer + s.animationLodBias * dt * baseScale)
              s.animationLodDistance) })) ∧
      (s.animationLodTimer + s.animationLodBias * dt * baseScale < s.animationLodDistance →
        updateAndCheckAnimationTimers baseScale dt s
          = (false, { s with animationLodTimer := (s.animationLodTimer +
              s.animationLodBias * dt * baseScale) }))) ∧
    runAnimationTimers 1 (List.replicate 11 1) ⟨1, -1, 10⟩
      = ([true, false, false, false, false, false, false, false, false, false, true],
         ⟨1, 0, 10⟩) := by
  refine ⟨?_, ?_, ?_, by norm_num [runAnimationTimers, updateAndCheckAnimationTimers,
    fmodQ, List.replicate]⟩
  · intro h
    have hc : ¬(s.animationLodBias > 0 ∧ s.animationLodDistance > 0) := by
      rcases h with h | h
      · exact fun hc => absurd hc.1 (not_lt.mpr h)
      · exact fun hc => absurd hc.2 (not_lt.mpr h)
    simp [updateAndCheckAnimationTimers, hc]
  · intro h1 h2 h3
    have hc : ¬(s.animationLodTimer ≥ 0) := not_le.mpr h3
    simp [updateAndCheckAnimationTimers, h1, h2, hc]
  · intro h1 h2 h3
    constructor
    · intro h4
      simp [updateAndCheckAnimationTimers, h1, h2, h3, h4]
    · intro h4
      have hc : ¬(s.animationLodTimer + s.animationLodBias * dt * baseScale
          ≥ s.animationLodDistance) := not_le.mpr h4
      simp [updateAndCheckAnimationTimers, h1, h2, h3, hc]

/-- Witness for C2 at the sentinel state with bias 1 and distance 10. -/
theorem claim_C2_witness :
    (1 : ℚ) > 0 ∧ (10 : ℚ) > 0 ∧ (-1 : ℚ) < 0 ∧
    updateAndCheckAnimationTimers 1 1 ⟨1, -1, 10⟩ = (true, ⟨1, 0, 10⟩) :=
  ⟨by decide, by decide, by decide,
    (claim_C2_lod_timer_gate 1 1 ⟨1, -1, 10⟩).2.1 (by decide) (by decide) (by decide)⟩

/-- Resetting to the bind pose twice gives the same buffer as doing it once. -/
theorem initializeLocalBoneTransforms_reset_idem :
    ∀ (bones : List Bone) (data : List ModelAnimationOutput),
      initializeLocalBoneTransforms true bones
          (initializeLocalBoneTransforms true bones data)
        = initializeLocalBoneTransforms true bones data := by
  intro bones
  induction bones with
  | nil => intro data; rfl
  | cons b bs ih =>
    intro data
    cases data with
    | nil => rfl
    | cons o os =>
      have htail := ih os
      simp only [initializeLocalBoneTransforms, List.zip_cons_cons, List.map_cons] at htail ⊢
      rw [htail]

/-- With `reset` requested, every produced entry is the bind pose with a clear
dirty marker, whatever the prior buffer held. -/
theorem initializeLocalBoneTransforms_reset_get :
    ∀ (bones : List Bone) (data : List ModelAnimationOutput) (i : Nat),
      i < bones.length → i < data.length →
      ((initializeLocalBoneTransforms true bones data).getD i dummyOutput).localToParent
          = ⟨(bones.getD i dummyBone).initialPosition,
             (bones.getD i dummyBone).initialRotation,
             (bones.getD i dummyBone).initialScale⟩ ∧
        ((initializeLocalBoneTransforms true bones data).getD i dummyOutput).dirty
          = CHANNEL_NONE ∧
        ((initializeLocalBoneTransforms true bones data).getD i dummyOutput).localToComponent
          = (data.getD i dummyOutput).localToComponent := by
  intro bones
  induction bones with
  | nil =>
    intro data i hi _
    exact absurd hi (Nat.not_lt_zero i)
  | cons b bs ih =>
    intro data i hi hd
    cases data with
    | nil => exact absurd hd (Nat.not_lt_zero i)
    | cons o os =>
      cases i with
      | zero => exact ⟨rfl, rfl, rfl⟩
      | succ j =>
        have hj : j < bs.length := Nat.lt_of_succ_lt_succ hi
        have hj' : j < os.length := Nat.lt_of_succ_lt_succ hd
        exact ih os j hj hj'

/-- C8: resetting local bone transforms to the bind pose is idempotent — the
second call reproduces the first call's buffer exactly — and each call writes
every bone's initial position/rotation/scale, clears the dirty marker, and
leaves the composed matrix slot untouched, independent of prior contents. -/
theorem claim_C8_reset_idempotent (bones : List Bone) (data : List ModelAnimationOutput) :
    initializeLocalBoneTransforms true bones
        (initializeLocalBoneTransforms true bones data)
      = initializeLocalBoneTransforms true bones data ∧
    (∀ i : Nat, i < bones.length → i < data.length →
      ((initializeLocalBoneTransforms true bones data).getD i dummyOutput).localToParent
          = ⟨(bones.getD i dummyBone).initialPosition,
             (bones.getD i dummyBone).initialRotation,
             (bones.getD i dummyBone).initialScale⟩ ∧
        ((initializeLocalBoneTransforms true bones data).getD i dummyOutput).dirty
          = CHANNEL_NONE) :=
  ⟨initializeLocalBoneTransforms_reset_idem bones data,
   fun i hi hd =>
    ⟨(initializeLocalBoneTransforms_reset_get bones data i hi hd).1,
     (initializeLocalBoneTransforms_reset_get bones data i hi hd).2.1⟩⟩

/-- Witness for C8 on a one-bone skeleton with a stale buffer entry. -/
theorem claim_C8_witness :
    0 < [exBone8].length ∧ 0 < [dummyOutput].length ∧
    initializeLocalBoneTransforms true [exBone8]
        (initializeLocalBoneTransforms true [exBone8] [dummyOutput])
      = initializeLocalBoneTransforms true [exBone8] [dummyOutput] ∧
    ((initializeLocalBoneTransforms true [exBone8] [dummyOutput]).getD 0
        dummyOutput).localToParent
      = ⟨([exBone8].getD 0 dummyBone).initialPosition,
         ([exBone8].getD 0 dummyBone).initialRotation,
         ([exBone8].getD 0 dummyBone).initialScale⟩ :=
  ⟨by decide, by decide,
   (claim_C8_reset_idempotent [exBone8] [dummyOutput]).1,
   ((claim_C8_reset_idempotent [exBone8] [dummyOutput]).2 0 (by decide) (by decide)).1⟩

/-- Unfolding `setMorphWeightLocal` at a valid index. -/
theorem setMorphWeightLocal_of_get (m : MorphModel) (index : Nat) (w : ℚ)
    (mo : ModelMorph) (h : m.morphs[index]? = some mo) :
    setMorphWeightLocal m index w =
      if w ≠ mo.weight then
        { m with
          morphs := m.morphs.set index { mo with weight := w }
          morphsDirty := true }
      else m := by
  unfold setMorphWeightLocal
  simp only [h]

/-- Unfolding `setMorphWeight` at a valid component and morph index. -/
theorem setMorphWeight_of_get (models : List MorphModel) (k index : Nat) (w : ℚ)
    (m : MorphModel) (morph : ModelMorph)
    (hm : models[k]? = some m) (hmo : m.morphs[index]? = some morph) :
    setMorphWeight models k index w =
      if w ≠ morph.weight then
        if m.isMaster then
          propagateSiblings morph.nameHash w
            (models.set k
              { m with
                morphs := m.morphs.set index { morph with weight := w }
                morphsDirty := true })
        else
          models.set k
            { m with
              morphs := m.morphs.set index { morph with weight := w }
              morphsDirty := true }
      else models := by
  unfold setMorphWeight
  simp only [hm, hmo]

/-- A `setMorphWeight` call with an out-of-range morph index is the identity. -/
theorem setMorphWeight_of_get_none (models : List MorphModel) (k index : Nat) (w : ℚ)
    (m : MorphModel) (hm : models[k]? = some m) (hmo : m.morphs[index]? = none) :
    setMorphWeight models k index w = models := by
  unfold setMorphWeight
  simp only [hm, hmo]

/-- After `setMorphWeightLocal m j w` with a valid index, the morph at `j`
carries weight `w`, whether or not the no-change guard fired. -/
theorem setMorphWeightLocal_weight (m : MorphModel) (j : Nat) (w : ℚ) (mo : ModelMorph)
    (h : m.morphs[j]? = some mo) :
    ((setMorphWeightLocal m j w).morphs.getD j dummyMorph).weight = w := by
  rw [setMorphWeightLocal_of_get m j w mo h]
  by_cases hw : w ≠ mo.weight
  · rw [if_pos hw]
    simp only [List.getD_eq_getElem?_getD, List.getElem?_set_self', h]
    rfl
  · rw [if_neg hw]
    rw [List.getD_eq_getElem?_getD, h]
    exact (not_not.mp hw).symm

/-- After `setMorphWeightByHashLocal`, the first morph matching the hash
carries weight `w`. -/
theorem setMorphWeightByHashLocal_weight (m : MorphModel) (hash : Nat) (w : ℚ) (j : Nat)
    (h : m.morphs.findIdx? (fun mo => mo.nameHash == hash) = some j) :
    ((setMorphWeightByHashLocal m hash w).morphs.getD j dummyMorph).weight = w := by
  unfold setMorphWeightByHashLocal
  rw [h]
  obtain ⟨hlt, _, _⟩ := List.findIdx?_eq_some_iff_getElem.mp h
  exact setMorphWeightLocal_weight m j w _ (List.getElem?_eq_getElem hlt)

/-- C6 is false as stated: when the new weight equals the master's current
weight, the guard `weight != morphs_[index].weight_` blocks propagation, so a
sibling holding a different weight for the same-named morph keeps it. Master
and sibling both own morph `"smile"` (hash 7); the master holds weight `2`,
the sibling `1`; setting the master's morph 0 to `2` leaves the sibling at
`1 ≠ 2`. -/
theorem claim_C6_counterexample :
    (((setMorphWeight
          [⟨true, [⟨"smile", 7, 2⟩], false⟩, ⟨false, [⟨"smile", 7, 1⟩], false⟩]
          0 0 2)[1]?.getD dummyMorphModel).morphs.getD 0 dummyMorph).weight
      ≠ 2 := by decide

/-- C6 (amended): when a master sets a morph weight that differs from its
current weight for that morph, the master's own morph takes the new weight and
every non-master sibling's first same-hash morph is set to the equal value;
setting a morph weight on a non-master component never changes any other
component. -/
theorem claim_C6_amended_propagation (models : List MorphModel) (index : Nat) (w : ℚ)
    (m : MorphModel) (hm : models[0]? = some m) (hmaster : m.isMaster = true)
    (morph : ModelMorph) (hmorph : m.morphs[index]? = some morph)
    (hw : w ≠ morph.weight) :
    (((setMorphWeight models 0 index w)[0]?.getD dummyMorphModel).morphs.getD index
        dummyMorph).weight = w ∧
    (∀ i mi, models[i + 1]? = some mi → mi.isMaster = false →
      ∀ j, mi.morphs.findIdx? (fun mo => mo.nameHash == morph.nameHash) = some j →
        (((setMorphWeight models 0 index w)[i + 1]?.getD dummyMorphModel).morphs.getD j
            dummyMorph).weight = w) ∧
    (∀ k mk, models[k]? = some mk → mk.isMaster = false →
      ∀ i, i ≠ k → (setMorphWeight models k index w)[i]? = models[i]?) := by
  have heq : setMorphWeight models 0 index w
      = propagateSiblings morph.nameHash w
          (models.set 0
            { m with
              morphs := m.morphs.set index { morph with weight := w }
              morphsDirty := true }) := by
    rw [setMorphWeight_of_get models 0 index w m morph hm hmorph, if_pos hw]
    simp [hmaster]
  refine ⟨?_, ?_, ?_⟩
  · cases models with
    | nil => exact absurd hm (by simp)
    | cons a rest =>
      have ha : a = m := by simpa using hm
      subst ha
      rw [heq]
      simp only [List.set_cons_zero]
      unfold propagateSiblings
      simp only [List.getElem?_cons_zero, Option.getD_some]
      simp only [List.getD_eq_getElem?_getD, List.getElem?_set_self', hmorph]
      rfl
  · intro i mi hmi hnm j hfind
    cases models with
    | nil => exact absurd hm (by simp)
    | cons a rest =>
      have ha : a = m := by simpa using hm
      subst ha
      rw [heq]
      simp only [List.set_cons_zero]
      unfold propagateSiblings
      have hresti : rest[i]? = some mi := by simpa using hmi
      simp only [List.getElem?_cons_succ, List.getElem?_map, hresti]
      simp [hnm]
      rw [← List.getD_eq_getElem?_getD]
      exact setMorphWeightByHashLocal_weight mi morph.nameHash w j hfind
  · intro k mk hmk hnm i hik
    cases hmo : mk.morphs[index]? with
    | none => rw [setMorphWeight_of_get_none models k index w mk hmk hmo]
    | some mo =>
      rw [setMorphWeight_of_get models k index w mk mo hmk hmo]
      by_cases hw' : w ≠ mo.weight
      · rw [if_pos hw', hnm, if_neg (by simp)]
        exact List.getElem?_set_ne (Ne.symm hik)
      · rw [if_neg hw']

/-- Witness for the amended C6: the master sets the weight to `3`, which
differs from its current `2`, and the sibling's morph follows. -/
theorem claim_C6_witness :
    exModels6[0]? = some ⟨true, [⟨"smile", 7, 2⟩], false⟩ ∧
    (3 : ℚ) ≠ (2 : ℚ) ∧
    (((setMorphWeight exModels6 0 0 3)[1]?.getD dummyMorphModel).morphs.getD 0
        dummyMorph).weight = 3 :=
  ⟨by decide, by decide,
    (claim_C6_amended_propagation exModels6 0 3 ⟨true, [⟨"smile", 7, 2⟩], false⟩
      (by decide) (by decide) ⟨"smile", 7, 2⟩ (by decide) (by decide)).2.1
      0 ⟨false, [⟨"smile", 7, 1⟩], false⟩ (by decide) (by decide) 0 (by decide)⟩

/-- C10: morph-weight access is total and safe — a set with an out-of-range
index is a no-op on every component, an out-of-range get returns zero, and a
get by unmatched name or name hash returns zero. -/
theorem claim_C10_morph_access_total (models : List MorphModel) (morphs : List ModelMorph)
    (k index : Nat) (w : ℚ) (name : String) (hash : Nat) :
    (∀ m, models[k]? = some m → m.morphs.length ≤ index →
      setMorphWeight models k index w = models) ∧
    (morphs.length ≤ index → getMorphWeight morphs index = 0) ∧
    ((∀ mo ∈ morphs, mo.name ≠ name) → getMorphWeightByName morphs name = 0) ∧
    ((∀ mo ∈ morphs, mo.nameHash ≠ hash) → getMorphWeightByHash morphs hash = 0) := by
  refine ⟨?_, ?_, ?_, ?_⟩
  · intro m hm hlen
    exact setMorphWeight_of_get_none models k index w m hm (List.getElem?_eq_none hlen)
  · intro hlen
    unfold getMorphWeight
    rw [List.getElem?_eq_none hlen]
  · intro hname
    unfold getMorphWeightByName
    rw [List.find?_eq_none.mpr (fun mo hmo => by
      simp only [beq_iff_eq]
      exact hname mo hmo)]
  · intro hhash
    unfold getMorphWeightByHash
    rw [List.find?_eq_none.mpr (fun mo hmo => by
      simp only [beq_iff_eq]
      exact hhash mo hmo)]

/-- Witness for C10 on a one-morph list and an out-of-range index. -/
theorem claim_C10_witness :
    ([⟨"smile", 7, (1 : ℚ)⟩] : List ModelMorph).length ≤ 5 ∧
    (∀ mo ∈ ([⟨"smile", 7, (1 : ℚ)⟩] : List ModelMorph), mo.name ≠ "frown") ∧
    (∀ mo ∈ ([⟨"smile", 7, (1 : ℚ)⟩] : List ModelMorph), mo.nameHash ≠ 9) ∧
    getMorphWeight [⟨"smile", 7, (1 : ℚ)⟩] 5 = 0 ∧
    getMorphWeightByName [⟨"smile", 7, (1 : ℚ)⟩] "frown" = 0 ∧
    getMorphWeightByHash [⟨"smile", 7, (1 : ℚ)⟩] 9 = 0 :=
  ⟨by decide, by decide, by decide,
    (claim_C10_morph_access_total [] [⟨"smile", 7, (1 : ℚ)⟩] 0 5 0 "frown" 9).2.1
      (by decide),
    (claim_C10_morph_access_total [] [⟨"smile", 7, (1 : ℚ)⟩] 0 5 0 "frown" 9).2.2.1
      (by decide),
    (claim_C10_morph_access_total [] [⟨"smile", 7, (1 : ℚ)⟩] 0 5 0 "frown" 9).2.2.2
      (by decide)⟩

/-- Reading `getD` of a `set` at the written in-range position yields the new value. -/
theorem getD_set_self {α : Type} (l : List α) (i : Nat) (x d : α) (h : i < l.length) :
    (l.set i x).getD i d = x := by
  rw [List.getD_eq_getElem?_getD, List.getElem?_set_self', List.getElem?_eq_getElem h]
  rfl

/-- Reading `getD` of a `set` at any other position is unchanged. -/
theorem getD_set_ne {α : Type} (l : List α) (i i0 : Nat) (x d : α) (h : i ≠ i0) :
    (l.set i x).getD i0 d = l.getD i0 d := by
  rw [List.getD_eq_getElem?_getD, List.getElem?_set_ne h, ← List.getD_eq_getElem?_getD]

/-- A slot write keeps the outer length. -/
theorem writeGeomSlot_length (gsm : List (List Matrix3x4)) (g j : Nat) (v : Matrix3x4) :
    (writeGeomSlot gsm g j v).length = gsm.length :=
  List.length_set gsm g _

/-- A slot write keeps every geometry's inner length. -/
theorem writeGeomSlot_inner_length (gsm : List (List Matrix3x4)) (g j : Nat)
    (v : Matrix3x4) (g0 : Nat) :
    ((writeGeomSlot gsm g j v).getD g0 []).length = (gsm.getD g0 []).length := by
  unfold writeGeomSlot
  by_cases hgg : g = g0
  · subst hgg
    by_cases hg : g < gsm.length
    · rw [getD_set_self gsm g _ [] hg, List.length_set]
    · rw [List.set_eq_of_length_le (Nat.le_of_not_lt hg)]
  · rw [getD_set_ne gsm g g0 _ [] hgg]

/-- Writing slot `(g, j)` in range stores the value there. -/
theorem writeGeomSlot_get_self (gsm : List (List Matrix3x4)) (g j : Nat) (v : Matrix3x4)
    (hg : g < gsm.length) (hj : j < (gsm.getD g []).length) :
    ((writeGeomSlot gsm g j v).getD g []).getD j Matrix3x4.identity = v := by
  unfold writeGeomSlot
  rw [getD_set_self gsm g _ [] hg, getD_set_self _ j v Matrix3x4.identity hj]

/-- Writing one slot leaves every other slot unchanged. -/
theorem writeGeomSlot_get_other (gsm : List (List Matrix3x4)) (g j : Nat) (v : Matrix3x4)
    (g0 j0 : Nat) (h : ¬(g = g0 ∧ j = j0)) :
    ((writeGeomSlot gsm g j v).getD g0 []).getD j0 Matrix3x4.identity
      = (gsm.getD g0 []).getD j0 Matrix3x4.identity := by
  unfold writeGeomSlot
  by_cases hgg : g = g0
  · subst hgg
    have hjj : j ≠ j0 := fun hj => h ⟨rfl, hj⟩
    by_cases hg : g < gsm.length
    · rw [getD_set_self gsm g _ [] hg, getD_set_ne _ j j0 v Matrix3x4.identity hjj]
    · rw [List.set_eq_of_length_le (Nat.le_of_not_lt hg)]
  · rw [getD_set_ne gsm g g0 _ [] hgg]

/-- A run of writes none of which target `gj` leaves slot `gj` unchanged. -/
theorem applyWrites_getD_of_not_target (gj : Nat × Nat) :
    ∀ (writes : List ((Nat × Nat) × Matrix3x4)) (gsm : List (List Matrix3x4)),
      (∀ w ∈ writes, w.1 ≠ gj) →
      ((applyWrites writes gsm).getD gj.1 []).getD gj.2 Matrix3x4.identity
        = (gsm.getD gj.1 []).getD gj.2 Matrix3x4.identity := by
  intro writes
  induction writes with
  | nil => intro gsm _; rfl
  | cons w rest ih =>
    intro gsm hni
    unfold applyWrites
    simp only [List.foldl_cons]
    have hw : w.1 ≠ gj := hni w (List.mem_cons_self w rest)
    have hrest : ∀ w' ∈ rest, w'.1 ≠ gj := fun w' hw' => hni w' (List.mem_cons_of_mem w hw')
    have := ih (writeGeomSlot gsm w.1.1 w.1.2 w.2) hrest
    unfold applyWrites at this
    rw [this]
    exact writeGeomSlot_get_other gsm w.1.1 w.1.2 w.2 gj.1 gj.2
      (fun hpair => hw (Prod.ext hpair.1 hpair.2))

/-- If every write targeting slot `gj` carries the same value `v`, and at least
one write targets it, then after all writes slot `gj` holds `v`. -/
theorem applyWrites_getD_target (gj : Nat × Nat) (v : Matrix3x4) :
    ∀ (writes : List ((Nat × Nat) × Matrix3x4)) (gsm : List (List Matrix3x4)),
      (∀ w ∈ writes, w.1 = gj → w.2 = v) →
      (∃ w ∈ writes, w.1 = gj) →
      gj.1 < gsm.length → gj.2 < (gsm.getD gj.1 []).length →
      ((applyWrites writes gsm).getD gj.1 []).getD gj.2 Matrix3x4.identity = v := by
  intro writes
  induction writes with
  | nil =>
    intro gsm _ hex _ _
    obtain ⟨w, hw, _⟩ := hex
    exact absurd hw (List.not_mem_nil w)
  | cons w rest ih =>
    intro gsm hunif hex hg hj
    unfold applyWrites
    simp only [List.foldl_cons]
    by_cases hrest : ∃ w' ∈ rest, w'.1 = gj
    · have hg' : gj.1 < (writeGeomSlot gsm w.1.1 w.1.2 w.2).length := by
        rw [writeGeomSlot_length]; exact hg
      have hj' : gj.2 < ((writeGeomSlot gsm w.1.1 w.1.2 w.2).getD gj.1 []).length := by
        rw [writeGeomSlot_inner_length]; exact hj
      have := ih (writeGeomSlot gsm w.1.1 w.1.2 w.2)
        (fun w' hw' => hunif w' (List.mem_cons_of_mem w hw')) hrest hg' hj'
      unfold applyWrites at this
      exact this
    · obtain ⟨w0, hw0, hw0gj⟩ := hex
      have hwgj : w.1 = gj := by
        rcases List.mem_cons.mp hw0 with h | h
        · rw [← h]; exact hw0gj
        · exact absurd ⟨w0, h, hw0gj⟩ hrest
      have hv : w.2 = v := hunif w (List.mem_cons_self w rest) hwgj
      have hni : ∀ w' ∈ rest, w'.1 ≠ gj := by
        intro w' hw' heq
        exact hrest ⟨w', hw', heq⟩
      have hpres := applyWrites_getD_of_not_target gj rest
        (writeGeomSlot gsm w.1.1 w.1.2 w.2) hni
      unfold applyWrites at hpres
      rw [hpres, hwgj, hv]
      exact writeGeomSlot_get_self gsm gj.1 gj.2 v hg hj

/-- The nested per-bone/per-alias write loop equals applying the flattened
write list. -/
theorem foldl_write_eq_applyWrites (ptrs : List (List (Nat × Nat))) (skin : List Matrix3x4) :
    ∀ (l : List Nat) (gsm : List (List Matrix3x4)),
      l.foldl
          (fun acc i =>
            (ptrs.getD i []).foldl
              (fun acc2 p => writeGeomSlot acc2 p.1 p.2 (skin.getD i Matrix3x4.identity))
              acc)
          gsm
        = applyWrites
            (l.flatMap fun i =>
              (ptrs.getD i []).map fun p => (p, skin.getD i Matrix3x4.identity))
            gsm := by
  intro l
  induction l with
  | nil => intro gsm; rfl
  | cons a l ih =>
    intro gsm
    simp only [List.foldl_cons, List.flatMap_cons]
    rw [ih]
    unfold applyWrites
    rw [List.foldl_append, List.foldl_map]

/-- Membership in the alias table built by `setGeometryBoneMappings`:
`(g, j)` is listed under bone `b` exactly when position `j` of geometry `g`
exists and maps to `b`. -/
theorem mem_setGeometryBoneMappings (numBones : Nat) (mappings : List (List Nat))
    (b : Nat) (hb : b < numBones) (g j : Nat) :
    (g, j) ∈ (setGeometryBoneMappings numBones mappings).getD b [] ↔
      g < mappings.length ∧ j < (mappings.getD g []).length ∧
        (mappings.getD g []).getD j 0 = b := by
  rw [List.getD_eq_getElem?_getD (setGeometryBoneMappings numBones mappings) b []]
  unfold setGeometryBoneMappings
  rw [List.getElem?_map, List.getElem?_range hb]
  simp only [Option.map_some', Option.getD_some]
  constructor
  · intro h
    simp only [List.mem_flatten, List.mem_map, List.mem_range] at h
    obtain ⟨l, ⟨i, hi, rfl⟩, hmem⟩ := h
    simp only [List.mem_filterMap, List.mem_range] at hmem
    obtain ⟨j', hj', hval⟩ := hmem
    by_cases hcond : (mappings.getD i []).getD j' 0 = b
    · rw [if_pos hcond] at hval
      simp only [Option.some.injEq, Prod.mk.injEq] at hval
      obtain ⟨rfl, rfl⟩ := hval
      exact ⟨hi, hj', hcond⟩
    · rw [if_neg hcond] at hval
      cases hval
  · rintro ⟨hg, hj, hval⟩
    simp only [List.mem_flatten, List.mem_map, List.mem_range]
    refine ⟨_, ⟨g, hg, rfl⟩, ?_⟩
    simp only [List.mem_filterMap, List.mem_range]
    exact ⟨j, hj, by rw [if_pos hval]⟩

/-- C3: after `UpdateSkinning`, every bone with an associated node has skin
matrix `nodeWorldTransform * offsetMatrix` and every bone without a node has
the owning model node's own world transform (the fresh value, independent of
any prior matrix); and with per-geometry bone mappings present, every aliased
per-geometry slot receives a copy of its mapped bone's skin matrix. -/
theorem claim_C3_update_skinning (worldTransform : Matrix3x4) (bones : List Bone)
    (mappings : List (List Nat)) (gsm : List (List Matrix3x4))
    (hlen : gsm.length = mappings.length)
    (hinner : ∀ g, (gsm.getD g []).length = (mappings.getD g []).length) :
    (∀ (i : Nat) (bone : Bone) (nd : Node), bones[i]? = some bone → bone.node = some nd →
      (updateSkinning worldTransform bones
          (setGeometryBoneMappings bones.length mappings) gsm).1[i]?
        = some (nd.worldTransform * bone.offsetMatrix)) ∧
    (∀ (i : Nat) (bone : Bone), bones[i]? = some bone → bone.node = none →
      (updateSkinning worldTransform bones
          (setGeometryBoneMappings bones.length mappings) gsm).1[i]?
        = some worldTransform) ∧
    (gsm.isEmpty = false →
      ∀ g j b, g < mappings.length → j < (mappings.getD g []).length →
        (mappings.getD g []).getD j 0 = b → b < bones.length →
        (((updateSkinning worldTransform bones
              (setGeometryBoneMappings bones.length mappings) gsm).2).getD g []).getD j
            Matrix3x4.identity
          = (updateSkinning worldTransform bones
              (setGeometryBoneMappings bones.length mappings) gsm).1.getD b
              Matrix3x4.identity) := by
  have hfst : (updateSkinning worldTransform bones
      (setGeometryBoneMappings bones.length mappings) gsm).1
        = bones.map (computeSkinMatrix worldTransform) := by
    simp only [updateSkinning]
    by_cases hemp : gsm.isEmpty = true
    · rw [if_pos hemp]
    · rw [if_neg hemp]
  refine ⟨?_, ?_, ?_⟩
  · intro i bone nd hbone hnode
    rw [hfst, List.getElem?_map, hbone]
    simp only [Option.map_some', Option.some.injEq]
    unfold computeSkinMatrix
    rw [hnode]
  · intro i bone hbone hnode
    rw [hfst, List.getElem?_map, hbone]
    simp only [Option.map_some', Option.some.injEq]
    unfold computeSkinMatrix
    rw [hnode]
  · intro hemp g j b hg hj hval hb
    have hsnd : (updateSkinning worldTransform bones
        (setGeometryBoneMappings bones.length mappings) gsm).2
          = applyWrites
              ((List.range bones.length).flatMap fun i =>
                ((setGeometryBoneMappings bones.length mappings).getD i []).map fun p =>
                  (p, (bones.map (computeSkinMatrix worldTransform)).getD i
                    Matrix3x4.identity))
              gsm := by
      simp only [updateSkinning]
      rw [if_neg (by rw [hemp]; exact Bool.false_ne_true)]
      exact foldl_write_eq_applyWrites _ _ (List.range bones.length) gsm
    rw [hsnd, hfst]
    apply applyWrites_getD_target (g, j)
    · intro w hw hwgj
      simp only [List.mem_flatMap, List.mem_range, List.mem_map] at hw
      obtain ⟨i, hi, p, hp, rfl⟩ := hw
      simp only at hwgj
      subst hwgj
      have := (mem_setGeometryBoneMappings bones.length mappings i hi g j).mp hp
      have hib : i = b := by rw [← hval]; exact this.2.2.symm
      rw [hib]
    · refine ⟨((g, j), (bones.map (computeSkinMatrix worldTransform)).getD b
        Matrix3x4.identity), ?_, rfl⟩
      simp only [List.mem_flatMap, List.mem_range, List.mem_map]
      exact ⟨b, hb, (g, j),
        (mem_setGeometryBoneMappings bones.length mappings b hb g j).mpr ⟨hg, hj, hval⟩,
        rfl⟩
    · rw [hlen]; exact hg
    · rw [hinner]; exact hj

/-- Witness for C3: the bone with a node gets `nodeWorld * offset`, the bone
without one gets the model's world transform, and geometry slot `(0, 0)`
receives bone 1's skin matrix. -/
theorem claim_C3_witness :
    exBones3[0]? = some { dummyBone with node := some exNode3 } ∧
    exBones3[1]? = some dummyBone ∧
    (updateSkinning exWorld3 exBones3 (setGeometryBoneMappings exBones3.length exMappings3)
        exGsm3).1[0]? = some (exNode3.worldTransform * dummyBone.offsetMatrix) ∧
    (updateSkinning exWorld3 exBones3 (setGeometryBoneMappings exBones3.length exMappings3)
        exGsm3).1[1]? = some exWorld3 ∧
    (((updateSkinning exWorld3 exBones3 (setGeometryBoneMappings exBones3.length exMappings3)
        exGsm3).2).getD 0 []).getD 0 Matrix3x4.identity
      = (updateSkinning exWorld3 exBones3 (setGeometryBoneMappings exBones3.length exMappings3)
          exGsm3).1.getD 1 Matrix3x4.identity := by
  have hinner : ∀ g, (exGsm3.getD g []).length = (exMappings3.getD g []).length := by
    intro g
    match g with
    | 0 => rfl
    | g + 1 => rfl
  have h := claim_C3_update_skinning exWorld3 exBones3 exMappings3 exGsm3 rfl hinner
  refine ⟨by decide, by decide, ?_, ?_, ?_⟩
  · exact h.1 0 { dummyBone with node := some exNode3 } exNode3 (by decide) (by decide)
  · exact h.2.1 1 dummyBone (by decide) (by decide)
  · exact h.2.2 (by decide) 0 0 1 (by decide) (by decide) (by decide) (by decide)

/-- C4: the computed local bounding box is exactly the spec's fold of per-bone
contributions over the composed component-space transforms, and an empty
skeleton yields the single point at the origin. -/
theorem claim_C4_local_bounding_box (bones : List Bone) (order : List Nat)
    (data : Nat → ModelAnimationOutput) :
    calculateLocalBoundingBox bones order data
      = specLocalBound bones
          (fun i => ((calculateFinalBoneTransforms
              (fun i0 => (bones.getD i0 dummyBone).parentIndex) order data)
            i).localToComponent) ∧
    calculateLocalBoundingBox [] order data = ⟨true, Vector3.zero, Vector3.zero⟩ :=
  ⟨rfl, rfl⟩

theorem Vector3.le_rfl (a : Vector3) : a.le a := ⟨le_refl _, le_refl _, le_refl _⟩

theorem Vector3.le_trans {a b c : Vector3} (h1 : a.le b) (h2 : b.le c) : a.le c :=
  ⟨h1.1.trans h2.1, h1.2.1.trans h2.2.1, h1.2.2.trans h2.2.2⟩

theorem Vector3.cmin_le_left (a v : Vector3) : (a.cmin v).le a :=
  ⟨min_le_left _ _, min_le_left _ _, min_le_left _ _⟩

theorem Vector3.le_cmax_left (a v : Vector3) : a.le (a.cmax v) :=
  ⟨le_max_left _ _, le_max_left _ _, le_max_left _ _⟩

theorem BBox.subset_rfl (a : BBox) : a.subset a :=
  fun h => ⟨h, Vector3.le_rfl _, Vector3.le_rfl _⟩

theorem BBox.subset_trans {a b c : BBox} (h1 : a.subset b) (h2 : b.subset c) :
    a.subset c := by
  intro ha
  obtain ⟨hb, h1min, h1max⟩ := h1 ha
  obtain ⟨hc, h2min, h2max⟩ := h2 hb
  exact ⟨hc, Vector3.le_trans h2min h1min, Vector3.le_trans h1max h2max⟩

/-- Growing a box by a point only enlarges it. -/
theorem BBox.subset_mergePoint (b : BBox) (v : Vector3) : b.subset (b.mergePoint v) := by
  intro hb
  unfold mergePoint
  rw [hb]
  exact ⟨rfl, Vector3.cmin_le_left _ _, Vector3.le_cmax_left _ _⟩

/-- Growing a box by another box only enlarges it. -/
theorem BBox.subset_mergeBox (b o : BBox) : b.subset (b.mergeBox o) := by
  unfold mergeBox
  by_cases ho : o.defined = true
  · rw [if_pos ho]
    exact BBox.subset_trans (BBox.subset_mergePoint b o.bmin)
      (BBox.subset_mergePoint _ o.bmax)
  · rw [if_neg ho]
    exact BBox.subset_rfl b

theorem boneCollisionLE_rfl (b : Bone) : boneCollisionLE b b :=
  ⟨fun h => ⟨h, le_refl _⟩, fun h => ⟨h, BBox.subset_rfl _⟩⟩

theorem boneCollisionLE_trans {a b c : Bone} (h1 : boneCollisionLE a b)
    (h2 : boneCollisionLE b c) : boneCollisionLE a c := by
  constructor
  · intro hs
    obtain ⟨hs1, hr1⟩ := h1.1 hs
    obtain ⟨hs2, hr2⟩ := h2.1 hs1
    exact ⟨hs2, hr1.trans hr2⟩
  · intro hb
    obtain ⟨hb1, hx1⟩ := h1.2 hb
    obtain ⟨hb2, hx2⟩ := h2.2 hb1
    exact ⟨hb2, BBox.subset_trans hx1 hx2⟩

/-- The sphere half of the merge never shrinks a bone's collision volume and
leaves the box data alone. -/
theorem mergeSpherePart_mono (b other : Bone) : boneCollisionLE b (mergeSpherePart b other) := by
  unfold mergeSpherePart
  by_cases hs : other.collisionSphere = true
  · rw [if_pos hs]
    exact ⟨fun h => ⟨rfl, le_max_left _ _⟩, fun h => ⟨h, BBox.subset_rfl _⟩⟩
  · rw [if_neg hs]
    exact boneCollisionLE_rfl b

/-- The box half of the merge never shrinks a bone's collision volume and
leaves the sphere data alone. -/
theorem mergeBoxPart_mono (b other : Bone) : boneCollisionLE b (mergeBoxPart b other) := by
  unfold mergeBoxPart
  by_cases hbx : other.collisionBox = true
  · rw [if_pos hbx]
    refine ⟨fun h => ⟨h, le_refl _⟩, fun h => ⟨rfl, ?_⟩⟩
    by_cases hd : b.boundingBox.defined = true
    · rw [if_pos hd]
      exact BBox.subset_mergeBox _ _
    · rw [if_neg hd]
      intro habs
      exact absurd habs hd
  · rw [if_neg hbx]
    exact boneCollisionLE_rfl b

/-- One sibling bone's merge never shrinks the master bone's volume. -/
theorem mergeOtherBone_mono (b other : Bone) : boneCollisionLE b (mergeOtherBone b other) :=
  boneCollisionLE_trans (mergeSpherePart_mono b other)
    (mergeBoxPart_mono (mergeSpherePart b other) other)

/-- Elementwise description of one sibling skeleton's merge. -/
theorem mergeSiblingSkeleton_getElem (bones sk : List Bone) (i : Nat) (b : Bone)
    (h : bones[i]? = some b) :
    (mergeSiblingSkeleton bones sk)[i]?
      = some (match sk.find? (fun ob => ob.nameHash == b.nameHash) with
          | some ob => mergeOtherBone b ob
          | none => b) := by
  unfold mergeSiblingSkeleton
  rw [List.getElem?_map, h]
  rfl

/-- One sibling skeleton's merge step never shrinks a bone's volume. -/
theorem mergeSiblingStep_mono (b : Bone) (sk : List Bone) :
    boneCollisionLE b (match sk.find? (fun ob => ob.nameHash == b.nameHash) with
      | some ob => mergeOtherBone b ob
      | none => b) := by
  cases h : sk.find? (fun ob => ob.nameHash == b.nameHash) with
  | some ob => exact mergeOtherBone_mono b ob
  | none => exact boneCollisionLE_rfl b

/-- Merging any number of sibling skeletons never shrinks any bone's collision
volume. -/
theorem foldl_mergeSiblingSkeleton_mono :
    ∀ (sks : List (List Bone)) (l : List Bone) (i : Nat) (b : Bone),
      l[i]? = some b →
      ∃ b', (sks.foldl mergeSiblingSkeleton l)[i]? = some b' ∧ boneCollisionLE b b' := by
  intro sks
  induction sks with
  | nil =>
    intro l i b h
    exact ⟨b, h, boneCollisionLE_rfl b⟩
  | cons sk sks ih =>
    intro l i b h
    simp only [List.foldl_cons]
    obtain ⟨b', hb', hle⟩ := ih (mergeSiblingSkeleton l sk) i _
      (mergeSiblingSkeleton_getElem l sk i b h)
    exact ⟨b', hb', boneCollisionLE_trans (mergeSiblingStep_mono b sk) hle⟩

/-- After the sphere strip, a surviving sphere flag has non-degenerate radius. -/
theorem stripSphereDegenerate_post (b : Bone) :
    (stripSphereDegenerate b).collisionSphere = true →
      ¬((stripSphereDegenerate b).radius < M_EPSILON) := by
  unfold stripSphereDegenerate
  by_cases h : b.collisionSphere = true ∧ b.radius < M_EPSILON
  · rw [if_pos h]
    intro habs
    exact absurd habs (by simp)
  · rw [if_neg h]
    intro hs hr
    exact h ⟨hs, hr⟩

/-- The sphere strip does not touch the box data. -/
theorem stripSphereDegenerate_box (b : Bone) :
    (stripSphereDegenerate b).collisionBox = b.collisionBox ∧
    (stripSphereDegenerate b).boundingBox = b.boundingBox := by
  unfold stripSphereDegenerate
  by_cases h : b.collisionSphere = true ∧ b.radius < M_EPSILON
  · rw [if_pos h]
    exact ⟨rfl, rfl⟩
  · rw [if_neg h]
    exact ⟨rfl, rfl⟩

/-- After the box strip, a surviving box flag has non-degenerate size. -/
theorem stripBoxDegenerate_post (b : Bone) :
    (stripBoxDegenerate b).collisionBox = true →
      ¬((stripBoxDegenerate b).boundingBox.size.lengthSq < M_EPSILON * M_EPSILON) := by
  unfold stripBoxDegenerate
  by_cases h : b.collisionBox = true ∧ b.boundingBox.size.lengthSq < M_EPSILON * M_EPSILON
  · rw [if_pos h]
    intro habs
    exact absurd habs (by simp)
  · rw [if_neg h]
    intro hbx hsz
    exact h ⟨hbx, hsz⟩

/-- Every bone surviving the full strip has non-degenerate collision data. -/
theorem stripDegenerateCollision_post (b : Bone) :
    ((stripDegenerateCollision b).collisionBox = true →
      ¬((stripDegenerateCollision b).boundingBox.size.lengthSq
          < M_EPSILON * M_EPSILON)) ∧
    ((stripDegenerateCollision b).collisionSphere = true →
      ¬((stripDegenerateCollision b).radius < M_EPSILON)) := by
  constructor
  · intro hbx
    unfold stripDegenerateCollision at hbx ⊢
    have hb2 := stripSphereDegenerate_box (stripBoxDegenerate b)
    rw [hb2.2]
    apply stripBoxDegenerate_post
    rw [← hb2.1]
    exact hbx
  · exact stripSphereDegenerate_post _

/-- C5: merging sibling skeletons' bone collision info via
`FinalizeBoneBoundingBoxes` never shrinks a bone's collision volume relative to
the master's own pre-merge (post-reset) volume, and every bone of the final
result with a box flag has a box of non-near-zero size and every bone with a
sphere flag a non-near-zero radius — the degenerate flags are stripped. -/
theorem claim_C5_merge_monotone_and_strip (modelBones : Option (List Bone))
    (bones : List Bone) (others : List (List Bone)) (i : Nat) (b : Bone)
    (h : (preMergeBones modelBones bones others)[i]? = some b) :
    (∃ b', (mergedBones modelBones bones others)[i]? = some b' ∧ boneCollisionLE b b') ∧
    (∀ bout ∈ finalizeBoneBoundingBoxes modelBones bones others,
      (bout.collisionBox = true →
        ¬(bout.boundingBox.size.lengthSq < M_EPSILON * M_EPSILON)) ∧
      (bout.collisionSphere = true → ¬(bout.radius < M_EPSILON))) := by
  constructor
  · exact foldl_mergeSiblingSkeleton_mono others (preMergeBones modelBones bones others) i b h
  · intro bout hmem
    unfold finalizeBoneBoundingBoxes at hmem
    obtain ⟨b0, _, rfl⟩ := List.mem_map.mp hmem
    exact stripDegenerateCollision_post b0

/-- Witness for C5 on a one-bone master and one sibling skeleton. -/
theorem claim_C5_witness :
    (preMergeBones none [exBone5] exOthers5)[0]? = some exBone5 ∧
    (∃ b', (mergedBones none [exBone5] exOthers5)[0]? = some b' ∧
      boneCollisionLE exBone5 b') :=
  ⟨by decide,
    (claim_C5_merge_monotone_and_strip none [exBone5] exOthers5 0 exBone5 (by decide)).1⟩

/-- C7: when the new skeleton has the same bone count and every existing bone
has an attached node and the same name and parent index as its counterpart,
`SetSkeleton` keeps the existing bone nodes and animated flags, copies only the
other bone values, and rebuilds nothing; any bone-count or parent-topology
difference is handled as "not compatible" — not an error — by falling back to
the full bone-node rebuild. -/
theorem claim_C7_skeleton_compatibility (oldBones newBones : List Bone)
    (createBones : Bool) :
    (oldBones.length = newBones.length → bonesCompatible oldBones newBones = true →
      setSkeletonMaster true oldBones newBones createBones
          = .ok ((oldBones.zip newBones).map (fun p => copyBoneRetain p.1 p.2), false) ∧
        ∀ (i : Nat) (d s : Bone), oldBones[i]? = some d → newBones[i]? = some s →
          ((oldBones.zip newBones).map (fun p => copyBoneRetain p.1 p.2))[i]?
            = some { s with node := d.node, animated := d.animated }) ∧
    (¬(oldBones.length = newBones.length ∧ bonesCompatible oldBones newBones = true) →
      setSkeletonMaster true oldBones newBones createBones
        = .ok ((finalizeBoneBoundingBoxes none newBones []).map
            (fun b =>
              if createBones = true then { b with node := some (mkBoneNode b) } else b),
            true)) := by
  constructor
  · intro hlen hcomp
    constructor
    · unfold setSkeletonMaster
      rw [if_neg (by simp), if_pos ⟨hlen, hcomp⟩]
    · intro i d s hd hs
      have hz : (oldBones.zip newBones)[i]? = some (d, s) :=
        List.getElem?_zip_eq_some.mpr ⟨hd, hs⟩
      rw [List.getElem?_map, hz]
      rfl
  · intro hne
    unfold setSkeletonMaster
    rw [if_neg (by simp), if_neg hne]

/-- Witness for C7: a compatible one-bone skeleton keeps its node and animated
flag while adopting the new values, and an incompatible (longer) skeleton takes
the rebuild path. -/
theorem claim_C7_witness :
    [exOldBone7].length = [exNewBone7].length ∧
    bonesCompatible [exOldBone7] [exNewBone7] = true ∧
    setSkeletonMaster true [exOldBone7] [exNewBone7] true
      = .ok (([exOldBone7].zip [exNewBone7]).map (fun p => copyBoneRetain p.1 p.2),
          false) ∧
    (([exOldBone7].zip [exNewBone7]).map (fun p => copyBoneRetain p.1 p.2))[0]?
      = some { exNewBone7 with node := exOldBone7.node, animated := exOldBone7.animated } ∧
    ¬([exOldBone7].length = ([] : List Bone).length ∧
        bonesCompatible [exOldBone7] [] = true) ∧
    setSkeletonMaster true [exOldBone7] [] true
      = .ok ((finalizeBoneBoundingBoxes none [] []).map
          (fun b => if (true : Bool) = true then { b with node := some (mkBoneNode b) }
            else b), true) := by
  have h := claim_C7_skeleton_compatibility [exOldBone7] [exNewBone7] true
  have h2 := claim_C7_skeleton_compatibility [exOldBone7] [] true
  refine ⟨by decide, by decide, (h.1 (by decide) (by decide)).1, ?_, by decide, ?_⟩
  · exact (h.1 (by decide) (by decide)).2 0 exOldBone7 exNewBone7 (by decide) (by decide)
  · exact h2.2 (by decide)

/-- C9 is false as stated: `SetModel` checks `model == model_` before the
attachment check, so setting the already-current model on an unattached
component returns silently — a no-op, but no error reaches the log sink. -/
theorem claim_C9_counterexample :
    setModel ⟨false, none, [], [], []⟩ none true = ⟨false, none, [], [], []⟩ := by decide

/-- C9 (amended): on an unattached component, `SetModel` with a model different
from the current one appends the error to the log and changes nothing else,
while `SetModel` with the already-current model returns silently without
logging; `SetSkeleton` with `createBones` requested while unattached reports
the error instead of touching any state. -/
theorem claim_C9_amended_unattached (s : AMState) (model : Option ModelRes)
    (createBones : Bool) (hatt : s.attached = false) :
    (model ≠ s.model →
      setModel s model createBones = { s with log := s.log ++ [setModelErrorMsg] }) ∧
    (model = s.model → setModel s model createBones = s) ∧
    (∀ oldBones newBones : List Bone,
      setSkeletonMaster false oldBones newBones true = .error setSkeletonErrorMsg) := by
  refine ⟨?_, ?_, ?_⟩
  · intro hne
    unfold setModel
    rw [if_neg hne, if_pos hatt]
  · intro heq
    unfold setModel
    rw [if_pos heq]
  · intro oldBones newBones
    unfold setSkeletonMaster
    rw [if_pos ⟨rfl, rfl⟩]

/-- Witness for the amended C9: an unattached component receiving a fresh model
logs the error and keeps its state; the same-model call stays silent. -/
theorem claim_C9_witness :
    (⟨false, none, [], [], []⟩ : AMState).attached = false ∧
    some ⟨[], []⟩ ≠ (⟨false, none, [], [], []⟩ : AMState).model ∧
    setModel ⟨false, none, [], [], []⟩ (some ⟨[], []⟩) true
      = ⟨false, none, [], [], [setModelErrorMsg]⟩ ∧
    setSkeletonMaster false [] [dummyBone] true = .error setSkeletonErrorMsg := by
  have h := claim_C9_amended_unattached ⟨false, none, [], [], []⟩ (some ⟨[], []⟩) true rfl
  refine ⟨rfl, by decide, ?_, ?_⟩
  · exact h.1 (by decide)
  · exact h.2.2 [] [dummyBone]

end Urho3D
